import Mathlib

/-!
Shallow embedding of the `extractor` package of bubnovd/kuberos
(src/extractor/oidc.go) and proofs about its observable behaviour.

External collaborators (the OAuth2 code-for-token exchange, the OIDC
ID-token verifier, the HTTP client and the Go context) are modelled as
abstract data: the exchange and the verification are function-valued
fields, so every theorem quantifies over their possible behaviours.
Errors are modelled as an inductive type whose constructors keep the
Go error identities apart (`errors.New` sentinels, wrapped errors,
JSON type-mismatch errors).
-/

/-- Models the relevant content of a Go `context.Context` for this code:
the only context key the extractor touches is the `oauth2.HTTPClient`
value installed by `oidc.ClientContext`. -/
structure GoContext where
  httpClient : Option Nat
deriving DecidableEq, Repr

/-- Opaque handle for an `*http.Client`; distinct values model distinct
client pointers.  `http.DefaultClient` is handle 0. -/
def defaultHttpClient : Nat := 0

/-- Models `oidc.ClientContext(ctx, h)`, which returns a context carrying
`h` under the `oauth2.HTTPClient` key (overriding any previous value). -/
def ClientContext (ctx : GoContext) (h : Nat) : GoContext :=
  { ctx with httpClient := some h }

/-- Models the Go errors that flow through this package.
`errNew` stands for an error value produced elsewhere (network failures,
provider rejections, verifier failures); `typeMismatch` stands for a JSON
unmarshal type error; `wrap` models `errors.Wrap(cause, msg)`.  The
sentinel `ErrMissingIDToken` gets its own constructor because Go compares
it by identity. -/
inductive GoError where
  | missingIDToken : GoError
  | errNew : String → GoError
  | typeMismatch : String → GoError
  | wrap : GoError → String → GoError
deriving DecidableEq, Repr

/-- Source: `var ErrMissingIDToken = errors.New("response missing ID token")`. -/
def ErrMissingIDToken : GoError := GoError.missingIDToken

/-- Source: `const tokenFieldIDToken = "id_token"`. -/
def tokenFieldIDToken : String := "id_token"

/-- A dynamically typed JSON value, as held in the token response's extra
fields and in the ID token's claim set (`interface\x7b\x7d` in Go). -/
inductive JSONValue where
  | str : String → JSONValue
  | num : Int → JSONValue
  | boolean : Bool → JSONValue
  | null : JSONValue
deriving DecidableEq, Repr

/-- Models `oauth2.Token`: the fields Process reads (`RefreshToken` and the
raw extra fields behind `Extra`), plus the access token for completeness. -/
structure Token where
  AccessToken : String
  RefreshToken : String
  raw : List (String × JSONValue)
deriving DecidableEq, Repr

/-- Models `token.Extra(key)`: look the key up in the raw response fields;
a missing key yields `none` (Go: an untyped nil). -/
def Token.Extra (t : Token) (key : String) : Option JSONValue :=
  (t.raw.find? (fun kv => kv.1 = key)).map (fun kv => kv.2)

/-- Models the Go type assertion `v.(string)` on an optional dynamic value:
it succeeds exactly when the value is present and is a string. -/
def asString : Option JSONValue → Option String
  | some (JSONValue.str s) => some s
  | _ => none

/-- Source: struct `OIDCAuthenticationParams` with its json/schema tags
`email`, `clientID`, `clientSecret`, `idToken`, `refreshToken`, `issuer`. -/
structure OIDCAuthenticationParams where
  Username : String
  ClientID : String
  ClientSecret : String
  IDToken : String
  RefreshToken : String
  IssuerURL : String
deriving DecidableEq, Repr

/-- The json tag names of the six fields of `OIDCAuthenticationParams`,
in field order. -/
def knownTags : List String :=
  ["email", "clientID", "clientSecret", "idToken", "refreshToken", "issuer"]

/-- Write the string `s` into the field of `p` whose json tag is `tag`
(no-op for an unknown tag). -/
def setByTag (p : OIDCAuthenticationParams) (tag : String) (s : String) :
    OIDCAuthenticationParams :=
  if tag = "email" then { p with Username := s }
  else if tag = "clientID" then { p with ClientID := s }
  else if tag = "clientSecret" then { p with ClientSecret := s }
  else if tag = "idToken" then { p with IDToken := s }
  else if tag = "refreshToken" then { p with RefreshToken := s }
  else if tag = "issuer" then { p with IssuerURL := s }
  else p

/-- Read the field of `p` whose json tag is `tag` (empty for an unknown tag). -/
def fieldByTag (p : OIDCAuthenticationParams) (tag : String) : String :=
  if tag = "email" then p.Username
  else if tag = "clientID" then p.ClientID
  else if tag = "clientSecret" then p.ClientSecret
  else if tag = "idToken" then p.IDToken
  else if tag = "refreshToken" then p.RefreshToken
  else if tag = "issuer" then p.IssuerURL
  else ""

/-- Decode one claim into the record, following the generic
claim-name-to-field decoding the source delegates to `idt.Claims`
(json unmarshal over the struct tags): a claim whose name matches a known
field tag overwrites that field and must be a string (these are all string
fields, so a non-string value is a type-mismatch error); a claim with an
unknown name is silently ignored. -/
def applyClaim (p : OIDCAuthenticationParams) (name : String) (v : JSONValue) :
    Except GoError OIDCAuthenticationParams :=
  if name ∈ knownTags then
    match v with
    | JSONValue.str s => Except.ok (setByTag p name s)
    | _ => Except.error (GoError.typeMismatch name)
  else Except.ok p

/-- Decode a claim set into the record, claim by claim in order, so a later
claim with the same name overwrites an earlier one. -/
def decodeClaims : List (String × JSONValue) → OIDCAuthenticationParams →
    Except GoError OIDCAuthenticationParams
  | [], p => Except.ok p
  | (n, v) :: rest, p =>
    match applyClaim p n v with
    | Except.ok p' => decodeClaims rest p'
    | Except.error e => Except.error e

/-- The value of the last claim named `tag` in a claim set, if any. -/
def lastClaim : List (String × JSONValue) → String → Option JSONValue
  | [], _ => none
  | (n, v) :: rest, tag =>
    match lastClaim rest tag with
    | some w => some w
    | none => if n = tag then some v else none

/-- The last element of a list, or the default `d` when the list is empty. -/
def lastOr (d : Nat) : List Nat → Nat
  | [] => d
  | a :: rest => lastOr a rest

/-- Models a verified `oidc.IDToken`: its `Issuer` field and the claim set
that `Claims` decodes from. -/
structure IDToken where
  Issuer : String
  claimSet : List (String × JSONValue)

/-- Models `idt.Claims(params)`: unmarshal the verified token's claims into
the record. -/
def IDToken.Claims (idt : IDToken) (p : OIDCAuthenticationParams) :
    Except GoError OIDCAuthenticationParams :=
  decodeClaims idt.claimSet p

/-- Models `*oidc.IDTokenVerifier`: an opaque collaborator that, given a
context and a raw ID token string, either rejects it or produces a
verified token. -/
structure IDTokenVerifier where
  Verify : GoContext → String → Except GoError IDToken

/-- Models `*oauth2.Config`: the client credentials Process reads, plus the
`Exchange` method as an opaque collaborator mapping a context and an
authorization code to a token set or an error. -/
structure Config where
  ClientID : String
  ClientSecret : String
  Exchange : GoContext → String → Except GoError Token

/-- Source: struct `oidcExtractor` with verifier `v` and HTTP client `h`. -/
structure oidcExtractor where
  v : IDTokenVerifier
  h : Nat

/-- Models the Go `Option` type for the extractor: a function that mutates
the extractor under construction and may fail.  The mutated extractor is
returned alongside the error. -/
def OptionFn : Type := oidcExtractor → oidcExtractor × Option GoError

/-- Source: `HTTPClient(h)` returns an option that installs `h` as the
extractor's HTTP client and never fails. -/
def HTTPClient (h : Nat) : OptionFn :=
  fun o => ({ o with h := h }, none)

/-- The option-application loop of `NewOIDC`: apply each option in order;
on the first option error return nil and the wrapped error. -/
def applyOptions : oidcExtractor → List OptionFn →
    Option oidcExtractor × Option GoError
  | oe, [] => (some oe, none)
  | oe, o :: rest =>
    match o oe with
    | (oe', none) => applyOptions oe' rest
    | (_, some err) => (none, some (GoError.wrap err "cannot apply OIDC option"))

/-- Source: `NewOIDC(v, oo...)` builds the extractor with the default HTTP
client, then applies the options. -/
def NewOIDC (v : IDTokenVerifier) (oo : List OptionFn) :
    Option oidcExtractor × Option GoError :=
  applyOptions { v := v, h := defaultHttpClient } oo

/-- Source: `(*oidcExtractor).Process(ctx, cfg, code)`, line for line.
Note that the client-bound context `octx` is passed to `cfg.Exchange`,
while `o.v.Verify` receives the original `ctx`, exactly as in the source.
The Go pair (pointer, error) is modelled as a pair of options. -/
def oidcExtractor.Process (o : oidcExtractor) (ctx : GoContext) (cfg : Config)
    (code : String) : Option OIDCAuthenticationParams × Option GoError :=
  let octx := ClientContext ctx o.h
  match cfg.Exchange octx code with
  | Except.error err => (none, some (GoError.wrap err "cannot exchange code for token"))
  | Except.ok token =>
    match asString (token.Extra tokenFieldIDToken) with
    | none => (none, some ErrMissingIDToken)
    | some id =>
      match o.v.Verify ctx id with
      | Except.error err => (none, some (GoError.wrap err "cannot verify ID token"))
      | Except.ok idt =>
        let params : OIDCAuthenticationParams :=
          { Username := "", ClientID := cfg.ClientID, ClientSecret := cfg.ClientSecret,
            IDToken := id, RefreshToken := token.RefreshToken, IssuerURL := idt.Issuer }
        match idt.Claims params with
        | Except.error err =>
          (none, some (GoError.wrap err "cannot extract claims from ID token"))
        | Except.ok params' => (some params', none)

/-- Modelled from the spec: the variant of `Process` that the spec's step 1
describes ("Bind the configured HTTP transport into the execution context
so the exchange and verification steps use it"): identical to the source
except that the verification step also receives the client-bound context
`octx`. -/
def ProcessSpecBoundTransport (o : oidcExtractor) (ctx : GoContext) (cfg : Config)
    (code : String) : Option OIDCAuthenticationParams × Option GoError :=
  let octx := ClientContext ctx o.h
  match cfg.Exchange octx code with
  | Except.error err => (none, some (GoError.wrap err "cannot exchange code for token"))
  | Except.ok token =>
    match asString (token.Extra tokenFieldIDToken) with
    | none => (none, some ErrMissingIDToken)
    | some id =>
      match o.v.Verify octx id with
      | Except.error err => (none, some (GoError.wrap err "cannot verify ID token"))
      | Except.ok idt =>
        let params : OIDCAuthenticationParams :=
          { Username := "", ClientID := cfg.ClientID, ClientSecret := cfg.ClientSecret,
            IDToken := id, RefreshToken := token.RefreshToken, IssuerURL := idt.Issuer }
        match idt.Claims params with
        | Except.error err =>
          (none, some (GoError.wrap err "cannot extract claims from ID token"))
        | Except.ok params' => (some params', none)

/-!
Concrete collaborator behaviours, used to instantiate the theorems below
at explicit inputs.
-/

/-- A verified token for the spec's happy-path scenario: issuer
`https://issuer.example`, one `email` claim. -/
def idtA : IDToken :=
  { Issuer := "https://issuer.example",
    claimSet := [("email", JSONValue.str "user@example.com")] }

/-- A verifier that accepts every token as `idtA`. -/
def verifierA : IDTokenVerifier := ⟨fun _ _ => Except.ok idtA⟩

/-- A token response carrying refresh token `r1` and a string `id_token`. -/
def tokenA : Token :=
  { AccessToken := "at", RefreshToken := "r1",
    raw := [("id_token", JSONValue.str "valid-jwt")] }

/-- A config with client id `abc` and secret `xyz` whose exchange always
returns `tokenA`. -/
def cfgA : Config := { ClientID := "abc", ClientSecret := "xyz",
                       Exchange := fun _ _ => Except.ok tokenA }

/-- A caller context with no HTTP client bound. -/
def ctxA : GoContext := ⟨none⟩

/-- An extractor built from `verifierA` and the default HTTP client. -/
def extractorA : oidcExtractor := ⟨verifierA, defaultHttpClient⟩

/-- A token response with no `id_token` field at all. -/
def tokenB : Token :=
  { AccessToken := "at", RefreshToken := "r1",
    raw := [("access_token", JSONValue.str "at")] }

/-- A config whose exchange returns `tokenB` (no `id_token`). -/
def cfgB : Config := { ClientID := "abc", ClientSecret := "xyz",
                       Exchange := fun _ _ => Except.ok tokenB }

/-- A token response whose `id_token` field is present but not a string. -/
def tokenB2 : Token :=
  { AccessToken := "at", RefreshToken := "r1",
    raw := [("id_token", JSONValue.num 7)] }

/-- A config whose exchange returns `tokenB2` (non-string `id_token`). -/
def cfgB2 : Config := { ClientID := "abc", ClientSecret := "xyz",
                        Exchange := fun _ _ => Except.ok tokenB2 }

/-- A config whose exchange always fails. -/
def cfgC : Config := { ClientID := "abc", ClientSecret := "xyz",
                       Exchange := fun _ _ => Except.error (GoError.errNew "invalid code") }

/-- A verifier that rejects every token. -/
def verifierD : IDTokenVerifier := ⟨fun _ _ => Except.error (GoError.errNew "bad signature")⟩

/-- An extractor whose verifier rejects every token. -/
def extractorD : oidcExtractor := ⟨verifierD, defaultHttpClient⟩

/-- A verified token whose `email` claim is a number, so decoding fails. -/
def idtE : IDToken :=
  { Issuer := "https://issuer.example", claimSet := [("email", JSONValue.num 5)] }

/-- A verifier that accepts every token as `idtE`. -/
def verifierE : IDTokenVerifier := ⟨fun _ _ => Except.ok idtE⟩

/-- An extractor whose verifier yields the undecodable `idtE`. -/
def extractorE : oidcExtractor := ⟨verifierE, defaultHttpClient⟩

/-- A verified token with no `email` claim. -/
def idtF : IDToken :=
  { Issuer := "https://issuer.example", claimSet := [("sub", JSONValue.str "u1")] }

/-- A verifier that accepts every token as `idtF`. -/
def verifierF : IDTokenVerifier := ⟨fun _ _ => Except.ok idtF⟩

/-- An extractor whose verifier yields `idtF` (no email claim). -/
def extractorF : oidcExtractor := ⟨verifierF, defaultHttpClient⟩

/-- A verified token that carries a claim literally named `clientID`. -/
def idtG : IDToken :=
  { Issuer := "https://issuer.example",
    claimSet := [("email", JSONValue.str "user@example.com"),
                 ("clientID", JSONValue.str "evil-client")] }

/-- A verifier that accepts every token as `idtG`. -/
def verifierG : IDTokenVerifier := ⟨fun _ _ => Except.ok idtG⟩

/-- An extractor whose verifier yields `idtG`. -/
def extractorG : oidcExtractor := ⟨verifierG, defaultHttpClient⟩

/-- A verified token whose issuer claim is `https://real.example` but whose
claim set carries a claim literally named `issuer` with another value. -/
def idtH : IDToken :=
  { Issuer := "https://real.example",
    claimSet := [("issuer", JSONValue.str "https://spoofed.example")] }

/-- A verifier that accepts every token as `idtH`. -/
def verifierH : IDTokenVerifier := ⟨fun _ _ => Except.ok idtH⟩

/-- An extractor whose verifier yields `idtH`. -/
def extractorH : oidcExtractor := ⟨verifierH, defaultHttpClient⟩

/-- A verifier that succeeds only when its context carries HTTP client 1:
it observes which context the extractor hands to the verification step. -/
def verifierS : IDTokenVerifier :=
  ⟨fun c _ => if c.httpClient = some 1 then Except.ok idtA
              else Except.error (GoError.errNew "verifier used default transport")⟩

/-- An extractor configured (via the HTTPClient option's effect) with HTTP
client 1 and the context-sensitive `verifierS`. -/
def extractorS : oidcExtractor := ⟨verifierS, 1⟩

/-!
Helper lemmas about the claim decoding.
-/

/-- Writing a known field through its tag and reading it back yields the
written value. -/
theorem fieldByTag_setByTag_self (p : OIDCAuthenticationParams) (tag s : String)
    (h : tag ∈ knownTags) : fieldByTag (setByTag p tag s) tag = s := by
  simp only [knownTags, List.mem_cons, List.not_mem_nil, or_false] at h
  rcases h with h | h | h | h | h | h <;> subst h <;> simp [setByTag, fieldByTag]

/-- Writing through any tag other than `email` leaves `Username` unchanged. -/
theorem setByTag_Username (p : OIDCAuthenticationParams) (tag s : String)
    (h : tag ≠ "email") : (setByTag p tag s).Username = p.Username := by
  unfold setByTag
  split_ifs <;> simp_all

/-- Writing through any tag other than `clientID` leaves `ClientID` unchanged. -/
theorem setByTag_ClientID (p : OIDCAuthenticationParams) (tag s : String)
    (h : tag ≠ "clientID") : (setByTag p tag s).ClientID = p.ClientID := by
  unfold setByTag
  split_ifs <;> simp_all

/-- Writing through any tag other than `clientSecret` leaves `ClientSecret`
unchanged. -/
theorem setByTag_ClientSecret (p : OIDCAuthenticationParams) (tag s : String)
    (h : tag ≠ "clientSecret") : (setByTag p tag s).ClientSecret = p.ClientSecret := by
  unfold setByTag
  split_ifs <;> simp_all

/-- Writing through any tag other than `idToken` leaves `IDToken` unchanged. -/
theorem setByTag_IDToken (p : OIDCAuthenticationParams) (tag s : String)
    (h : tag ≠ "idToken") : (setByTag p tag s).IDToken = p.IDToken := by
  unfold setByTag
  split_ifs <;> simp_all

/-- Writing through any tag other than `refreshToken` leaves `RefreshToken`
unchanged. -/
theorem setByTag_RefreshToken (p : OIDCAuthenticationParams) (tag s : String)
    (h : tag ≠ "refreshToken") : (setByTag p tag s).RefreshToken = p.RefreshToken := by
  unfold setByTag
  split_ifs <;> simp_all

/-- Writing through any tag other than `issuer` leaves `IssuerURL` unchanged. -/
theorem setByTag_IssuerURL (p : OIDCAuthenticationParams) (tag s : String)
    (h : tag ≠ "issuer") : (setByTag p tag s).IssuerURL = p.IssuerURL := by
  unfold setByTag
  split_ifs <;> simp_all

/-- Writing one field leaves every other tag's field unchanged. -/
theorem fieldByTag_setByTag_ne (p : OIDCAuthenticationParams) (tag tag' s : String)
    (h : tag ≠ tag') : fieldByTag (setByTag p tag s) tag' = fieldByTag p tag' := by
  unfold fieldByTag
  split_ifs with h1 h2 h3 h4 h5 h6
  · rw [h1] at h; exact setByTag_Username p tag s h
  · rw [h2] at h; exact setByTag_ClientID p tag s h
  · rw [h3] at h; exact setByTag_ClientSecret p tag s h
  · rw [h4] at h; exact setByTag_IDToken p tag s h
  · rw [h5] at h; exact setByTag_RefreshToken p tag s h
  · rw [h6] at h; exact setByTag_IssuerURL p tag s h
  · rfl

/-- Decoding a single claim leaves the fields of all other tags unchanged. -/
theorem applyClaim_ok_ne (p q : OIDCAuthenticationParams) (name tag : String)
    (v : JSONValue) (hne : name ≠ tag) (h : applyClaim p name v = Except.ok q) :
    fieldByTag q tag = fieldByTag p tag := by
  unfold applyClaim at h
  split at h
  · cases v with
    | str s =>
      simp only [Except.ok.injEq] at h
      subst h
      exact fieldByTag_setByTag_ne p name tag s hne
    | num n => simp at h
    | boolean b => simp at h
    | null => simp at h
  · simp only [Except.ok.injEq] at h
    subst h
    rfl

/-- Decoding a claim set with no claim named `tag` leaves that tag's field
unchanged. -/
theorem decodeClaims_ok_not_mem (claims : List (String × JSONValue)) (tag : String) :
    ∀ p q, tag ∉ claims.map Prod.fst → decodeClaims claims p = Except.ok q →
    fieldByTag q tag = fieldByTag p tag := by
  induction claims with
  | nil =>
    intro p q _ h
    simp only [decodeClaims, Except.ok.injEq] at h
    subst h
    rfl
  | cons c rest ih =>
    intro p q hmem h
    obtain ⟨n, v⟩ := c
    simp only [List.map_cons, List.mem_cons, not_or] at hmem
    obtain ⟨hne, hrest⟩ := hmem
    unfold decodeClaims at h
    cases hac : applyClaim p n v with
    | error e => rw [hac] at h; simp at h
    | ok p' =>
      rw [hac] at h
      have h2 : decodeClaims rest p' = Except.ok q := h
      rw [ih p' q hrest h2]
      exact applyClaim_ok_ne p p' n tag v (fun hh => hne hh.symm) hac

/-- If no claim named `tag` is last, none is present at all. -/
theorem lastClaim_none_not_mem (claims : List (String × JSONValue)) (tag : String) :
    lastClaim claims tag = none → tag ∉ claims.map Prod.fst := by
  induction claims with
  | nil => intro _; simp
  | cons c rest ih =>
    obtain ⟨n, v⟩ := c
    intro h
    unfold lastClaim at h
    cases hlr : lastClaim rest tag with
    | some w => rw [hlr] at h; simp at h
    | none =>
      rw [hlr] at h
      have hne : ¬ n = tag := by
        intro he
        rw [if_pos he] at h
        cases h
      simp only [List.map_cons, List.mem_cons, not_or]
      exact ⟨fun he => hne he.symm, ih hlr⟩

/-- After a successful decode, a known field whose tag has a string-valued
last claim holds exactly that claim's value: the decoded claims overwrite
whatever the field held before. -/
theorem decodeClaims_ok_last (claims : List (String × JSONValue)) (tag s : String)
    (htag : tag ∈ knownTags) :
    ∀ p q, lastClaim claims tag = some (JSONValue.str s) →
    decodeClaims claims p = Except.ok q → fieldByTag q tag = s := by
  induction claims with
  | nil => intro p q hl _; simp [lastClaim] at hl
  | cons c rest ih =>
    intro p q hl h
    obtain ⟨n, v⟩ := c
    unfold decodeClaims at h
    cases hac : applyClaim p n v with
    | error e => rw [hac] at h; simp at h
    | ok p' =>
      rw [hac] at h
      have h2 : decodeClaims rest p' = Except.ok q := h
      unfold lastClaim at hl
      cases hlr : lastClaim rest tag with
      | some w =>
        rw [hlr] at hl
        simp only [Option.some.injEq] at hl
        subst hl
        exact ih p' q hlr h2
      | none =>
        rw [hlr] at hl
        have hn : n = tag := by
          by_contra hc
          rw [if_neg hc] at hl
          cases hl
        rw [if_pos hn] at hl
        simp only [Option.some.injEq] at hl
        subst hl
        subst hn
        rw [decodeClaims_ok_not_mem rest n p' q (lastClaim_none_not_mem rest n hlr) h2]
        unfold applyClaim at hac
        rw [if_pos htag] at hac
        simp only [Except.ok.injEq] at hac
        subst hac
        exact fieldByTag_setByTag_self p n s htag

/-!
Claim theorems.
-/

/-- C2: whenever the token exchange succeeds but the response's extra
`id_token` field is absent or not a string, `Process` returns a nil result
and exactly the sentinel `ErrMissingIDToken`, which is distinct from every
wrapped error, every `errors.New` error and every decode error — no matter
which other fields the response contains. -/
theorem process_missing_id_token (o : oidcExtractor) (ctx : GoContext) (cfg : Config)
    (code : String) (token : Token)
    (hex : cfg.Exchange (ClientContext ctx o.h) code = Except.ok token)
    (hid : asString (token.Extra tokenFieldIDToken) = none) :
    o.Process ctx cfg code = (none, some ErrMissingIDToken) ∧
    (∀ c m, ErrMissingIDToken ≠ GoError.wrap c m) ∧
    (∀ m, ErrMissingIDToken ≠ GoError.errNew m) ∧
    (∀ m, ErrMissingIDToken ≠ GoError.typeMismatch m) := by
  refine ⟨by simp [oidcExtractor.Process, hex, hid], ?_, ?_, ?_⟩ <;>
    intros <;> simp [ErrMissingIDToken]

/-- Witness for C2: a response with an `access_token` but no `id_token`
yields a nil result and the sentinel. -/
theorem process_missing_id_token_witness :
    oidcExtractor.Process extractorA ctxA cfgB "auth-code-1" =
      (none, some ErrMissingIDToken) ∧
    (∀ c m, ErrMissingIDToken ≠ GoError.wrap c m) ∧
    (∀ m, ErrMissingIDToken ≠ GoError.errNew m) ∧
    (∀ m, ErrMissingIDToken ≠ GoError.typeMismatch m) :=
  process_missing_id_token extractorA ctxA cfgB "auth-code-1" tokenB rfl rfl

/-- C3: the result of `Process` is nil exactly when the error is non-nil:
no invocation returns a partial result alongside an error, and every
successful invocation returns a non-nil result. -/
theorem process_result_none_iff_error (o : oidcExtractor) (ctx : GoContext)
    (cfg : Config) (code : String) :
    (o.Process ctx cfg code).1 = none ↔ (o.Process ctx cfg code).2 ≠ none := by
  cases hex : cfg.Exchange (ClientContext ctx o.h) code with
  | error e => simp [oidcExtractor.Process, hex]
  | ok token =>
    cases hid : asString (token.Extra tokenFieldIDToken) with
    | none => simp [oidcExtractor.Process, hex, hid]
    | some id =>
      cases hv : o.v.Verify ctx id with
      | error e => simp [oidcExtractor.Process, hex, hid, hv]
      | ok idt =>
        cases hdec : decodeClaims idt.claimSet
            { Username := "", ClientID := cfg.ClientID, ClientSecret := cfg.ClientSecret,
              IDToken := id, RefreshToken := token.RefreshToken,
              IssuerURL := idt.Issuer } with
        | error e =>
          simp [oidcExtractor.Process, IDToken.Claims, hex, hid, hv, hdec]
        | ok p =>
          simp [oidcExtractor.Process, IDToken.Claims, hex, hid, hv, hdec]

/-- C6: when the exchange call fails, `Process` returns a nil result and
the cause wrapped with the exchange-stage description, and the verifier is
never consulted: the outcome is identical for every possible verifier. -/
theorem process_exchange_failure (o : oidcExtractor) (ctx : GoContext) (cfg : Config)
    (code : String) (e : GoError)
    (hex : cfg.Exchange (ClientContext ctx o.h) code = Except.error e) :
    o.Process ctx cfg code = (none, some (GoError.wrap e "cannot exchange code for token")) ∧
    ∀ v' : IDTokenVerifier,
      oidcExtractor.Process ⟨v', o.h⟩ ctx cfg code = o.Process ctx cfg code := by
  constructor
  · simp [oidcExtractor.Process, hex]
  · intro v'
    simp [oidcExtractor.Process, hex]

/-- Witness for C6: an exchange rejecting the code produces the wrapped
exchange-stage error for any verifier. -/
theorem process_exchange_failure_witness :
    oidcExtractor.Process extractorA ctxA cfgC "bad-code" =
      (none, some (GoError.wrap (GoError.errNew "invalid code")
        "cannot exchange code for token")) ∧
    ∀ v' : IDTokenVerifier,
      oidcExtractor.Process ⟨v', extractorA.h⟩ ctxA cfgC "bad-code" =
        oidcExtractor.Process extractorA ctxA cfgC "bad-code" :=
  process_exchange_failure extractorA ctxA cfgC "bad-code" (GoError.errNew "invalid code") rfl

/-- C7: when the exchange succeeds and a string `id_token` is present but
the verifier rejects it, `Process` returns a nil result and the cause
wrapped with the verification-stage description. -/
theorem process_verify_failure (o : oidcExtractor) (ctx : GoContext) (cfg : Config)
    (code : String) (token : Token) (id : String) (e : GoError)
    (hex : cfg.Exchange (ClientContext ctx o.h) code = Except.ok token)
    (hid : asString (token.Extra tokenFieldIDToken) = some id)
    (hv : o.v.Verify ctx id = Except.error e) :
    o.Process ctx cfg code = (none, some (GoError.wrap e "cannot verify ID token")) := by
  simp [oidcExtractor.Process, hex, hid, hv]

/-- Witness for C7: a verifier rejecting the token yields the wrapped
verification-stage error and no result. -/
theorem process_verify_failure_witness :
    oidcExtractor.Process extractorD ctxA cfgA "auth-code-1" =
      (none, some (GoError.wrap (GoError.errNew "bad signature") "cannot verify ID token")) :=
  process_verify_failure extractorD ctxA cfgA "auth-code-1" tokenA "valid-jwt"
    (GoError.errNew "bad signature") rfl rfl rfl

/-- C8: when exchange, `id_token` extraction and verification all succeed
but decoding the verified token's claims into the result record fails,
`Process` returns a nil result and the cause wrapped with the
claims-extraction-stage description. -/
theorem process_claims_failure (o : oidcExtractor) (ctx : GoContext) (cfg : Config)
    (code : String) (token : Token) (id : String) (idt : IDToken) (e : GoError)
    (hex : cfg.Exchange (ClientContext ctx o.h) code = Except.ok token)
    (hid : asString (token.Extra tokenFieldIDToken) = some id)
    (hv : o.v.Verify ctx id = Except.ok idt)
    (hdec : decodeClaims idt.claimSet
      { Username := "", ClientID := cfg.ClientID, ClientSecret := cfg.ClientSecret,
        IDToken := id, RefreshToken := token.RefreshToken,
        IssuerURL := idt.Issuer } = Except.error e) :
    o.Process ctx cfg code =
      (none, some (GoError.wrap e "cannot extract claims from ID token")) := by
  simp [oidcExtractor.Process, IDToken.Claims, hex, hid, hv, hdec]

/-- Witness for C8: an `email` claim holding a number makes the decode fail
with a type-mismatch error, wrapped with the claims-stage description. -/
theorem process_claims_failure_witness :
    oidcExtractor.Process extractorE ctxA cfgA "auth-code-1" =
      (none, some (GoError.wrap (GoError.typeMismatch "email")
        "cannot extract claims from ID token")) :=
  process_claims_failure extractorE ctxA cfgA "auth-code-1" tokenA "valid-jwt" idtE
    (GoError.typeMismatch "email") rfl rfl rfl rfl

/-- C1 (amended): when the exchange yields a token set with a string
`id_token` that verifies and whose claims decode successfully, and the
verified token's claim set carries no claim named `clientID`,
`clientSecret`, `idToken`, `refreshToken` or `issuer`, `Process` returns a
non-nil result whose `ClientID`/`ClientSecret` equal the input config's,
whose `IDToken` is the raw `id_token` string, whose `RefreshToken` is the
exchanged token set's refresh token, and whose `IssuerURL` is the verified
token's issuer claim.  (Without the no-same-named-claims condition the
decode step can overwrite these fields, see the counterexample.) -/
theorem process_success_fields (o : oidcExtractor) (ctx : GoContext) (cfg : Config)
    (code : String) (token : Token) (id : String) (idt : IDToken)
    (p : OIDCAuthenticationParams)
    (hex : cfg.Exchange (ClientContext ctx o.h) code = Except.ok token)
    (hid : asString (token.Extra tokenFieldIDToken) = some id)
    (hv : o.v.Verify ctx id = Except.ok idt)
    (hdec : decodeClaims idt.claimSet
      { Username := "", ClientID := cfg.ClientID, ClientSecret := cfg.ClientSecret,
        IDToken := id, RefreshToken := token.RefreshToken,
        IssuerURL := idt.Issuer } = Except.ok p)
    (hno : ∀ tag ∈ ["clientID", "clientSecret", "idToken", "refreshToken", "issuer"],
      tag ∉ idt.claimSet.map Prod.fst) :
    o.Process ctx cfg code = (some p, none) ∧
    p.ClientID = cfg.ClientID ∧ p.ClientSecret = cfg.ClientSecret ∧
    p.IDToken = id ∧ p.RefreshToken = token.RefreshToken ∧
    p.IssuerURL = idt.Issuer := by
  refine ⟨by simp [oidcExtractor.Process, IDToken.Claims, hex, hid, hv, hdec],
    ?_, ?_, ?_, ?_, ?_⟩
  · have h := decodeClaims_ok_not_mem idt.claimSet "clientID" _ p
      (hno "clientID" (by simp)) hdec
    simpa [fieldByTag] using h
  · have h := decodeClaims_ok_not_mem idt.claimSet "clientSecret" _ p
      (hno "clientSecret" (by simp)) hdec
    simpa [fieldByTag] using h
  · have h := decodeClaims_ok_not_mem idt.claimSet "idToken" _ p
      (hno "idToken" (by simp)) hdec
    simpa [fieldByTag] using h
  · have h := decodeClaims_ok_not_mem idt.claimSet "refreshToken" _ p
      (hno "refreshToken" (by simp)) hdec
    simpa [fieldByTag] using h
  · have h := decodeClaims_ok_not_mem idt.claimSet "issuer" _ p
      (hno "issuer" (by simp)) hdec
    simpa [fieldByTag] using h

/-- Witness for C1 (amended): the spec's happy-path scenario, where the
only claims are `email` and the issuer. -/
theorem process_success_fields_witness :
    oidcExtractor.Process extractorA ctxA cfgA "auth-code-1" =
      (some { Username := "user@example.com", ClientID := "abc", ClientSecret := "xyz",
              IDToken := "valid-jwt", RefreshToken := "r1",
              IssuerURL := "https://issuer.example" }, none) ∧
    ("abc" : String) = "abc" ∧ ("xyz" : String) = "xyz" ∧
    ("valid-jwt" : String) = "valid-jwt" ∧ ("r1" : String) = "r1" ∧
    ("https://issuer.example" : String) = "https://issuer.example" :=
  process_success_fields extractorA ctxA cfgA "auth-code-1" tokenA "valid-jwt" idtA
    { Username := "user@example.com", ClientID := "abc", ClientSecret := "xyz",
      IDToken := "valid-jwt", RefreshToken := "r1",
      IssuerURL := "https://issuer.example" }
    rfl rfl rfl rfl (by decide)

/-- Counterexample to C1 as stated: the exchange succeeds, the `id_token`
verifies and its claims decode successfully, yet the result's `ClientID`
is the value of the token's `clientID` claim, not the input config's
client id `abc`. -/
theorem process_success_fields_cex :
    oidcExtractor.Process extractorG ctxA cfgA "auth-code-1" =
      (some { Username := "user@example.com", ClientID := "evil-client",
              ClientSecret := "xyz", IDToken := "valid-jwt", RefreshToken := "r1",
              IssuerURL := "https://issuer.example" }, none) ∧
    ("evil-client" : String) ≠ cfgA.ClientID := by
  exact ⟨rfl, by decide⟩

/-- C9: on a successful run whose verified token carries no `email` claim,
`Process` still succeeds and the result's `Username` is the empty string:
no presence check is applied to the email claim. -/
theorem process_no_email_claim (o : oidcExtractor) (ctx : GoContext) (cfg : Config)
    (code : String) (token : Token) (id : String) (idt : IDToken)
    (p : OIDCAuthenticationParams)
    (hex : cfg.Exchange (ClientContext ctx o.h) code = Except.ok token)
    (hid : asString (token.Extra tokenFieldIDToken) = some id)
    (hv : o.v.Verify ctx id = Except.ok idt)
    (hdec : decodeClaims idt.claimSet
      { Username := "", ClientID := cfg.ClientID, ClientSecret := cfg.ClientSecret,
        IDToken := id, RefreshToken := token.RefreshToken,
        IssuerURL := idt.Issuer } = Except.ok p)
    (hmail : "email" ∉ idt.claimSet.map Prod.fst) :
    o.Process ctx cfg code = (some p, none) ∧ p.Username = "" := by
  refine ⟨by simp [oidcExtractor.Process, IDToken.Claims, hex, hid, hv, hdec], ?_⟩
  have h := decodeClaims_ok_not_mem idt.claimSet "email" _ p hmail hdec
  simpa [fieldByTag] using h

/-- Witness for C9: a token whose only claim is `sub` yields success with an
empty `Username`. -/
theorem process_no_email_claim_witness :
    oidcExtractor.Process extractorF ctxA cfgA "auth-code-1" =
      (some { Username := "", ClientID := "abc", ClientSecret := "xyz",
              IDToken := "valid-jwt", RefreshToken := "r1",
              IssuerURL := "https://issuer.example" }, none) ∧
    ("" : String) = "" :=
  process_no_email_claim extractorF ctxA cfgA "auth-code-1" tokenA "valid-jwt" idtF
    { Username := "", ClientID := "abc", ClientSecret := "xyz",
      IDToken := "valid-jwt", RefreshToken := "r1",
      IssuerURL := "https://issuer.example" }
    rfl rfl rfl rfl (by decide)

/-- C5 (amended): on a successful run the decoded claims take priority over
the fields pre-populated in step 5 — a known field whose tag appears as a
(string-valued, last) claim ends up holding the claim's value — while a
field whose tag appears in no claim keeps its pre-populated value; in
practice `Username`/`email` is the only net-new claim. -/
theorem process_claims_overwrite (o : oidcExtractor) (ctx : GoContext) (cfg : Config)
    (code : String) (token : Token) (id : String) (idt : IDToken)
    (p : OIDCAuthenticationParams)
    (hex : cfg.Exchange (ClientContext ctx o.h) code = Except.ok token)
    (hid : asString (token.Extra tokenFieldIDToken) = some id)
    (hv : o.v.Verify ctx id = Except.ok idt)
    (hdec : decodeClaims idt.claimSet
      { Username := "", ClientID := cfg.ClientID, ClientSecret := cfg.ClientSecret,
        IDToken := id, RefreshToken := token.RefreshToken,
        IssuerURL := idt.Issuer } = Except.ok p) :
    o.Process ctx cfg code = (some p, none) ∧
    (∀ tag s, tag ∈ knownTags → lastClaim idt.claimSet tag = some (JSONValue.str s) →
      fieldByTag p tag = s) ∧
    (∀ tag, tag ∉ idt.claimSet.map Prod.fst →
      fieldByTag p tag = fieldByTag
        { Username := "", ClientID := cfg.ClientID, ClientSecret := cfg.ClientSecret,
          IDToken := id, RefreshToken := token.RefreshToken,
          IssuerURL := idt.Issuer } tag) := by
  refine ⟨by simp [oidcExtractor.Process, IDToken.Claims, hex, hid, hv, hdec], ?_, ?_⟩
  · intro tag s htag hl
    exact decodeClaims_ok_last idt.claimSet tag s htag _ p hl hdec
  · intro tag hmem
    exact decodeClaims_ok_not_mem idt.claimSet tag _ p hmem hdec

/-- Witness for C5 (amended): a token with a claim literally named `issuer`
makes the result's `IssuerURL` hold the claim's value, while the untouched
fields keep their pre-populated values. -/
theorem process_claims_overwrite_witness :
    oidcExtractor.Process extractorH ctxA cfgA "auth-code-1" =
      (some { Username := "", ClientID := "abc", ClientSecret := "xyz",
              IDToken := "valid-jwt", RefreshToken := "r1",
              IssuerURL := "https://spoofed.example" }, none) ∧
    (∀ tag s, tag ∈ knownTags → lastClaim idtH.claimSet tag = some (JSONValue.str s) →
      fieldByTag { Username := "", ClientID := "abc", ClientSecret := "xyz",
                   IDToken := "valid-jwt", RefreshToken := "r1",
                   IssuerURL := "https://spoofed.example" } tag = s) ∧
    (∀ tag, tag ∉ idtH.claimSet.map Prod.fst →
      fieldByTag { Username := "", ClientID := "abc", ClientSecret := "xyz",
                   IDToken := "valid-jwt", RefreshToken := "r1",
                   IssuerURL := "https://spoofed.example" } tag =
      fieldByTag { Username := "", ClientID := cfgA.ClientID,
                   ClientSecret := cfgA.ClientSecret, IDToken := "valid-jwt",
                   RefreshToken := tokenA.RefreshToken,
                   IssuerURL := idtH.Issuer } tag) :=
  process_claims_overwrite extractorH ctxA cfgA "auth-code-1" tokenA "valid-jwt" idtH
    { Username := "", ClientID := "abc", ClientSecret := "xyz",
      IDToken := "valid-jwt", RefreshToken := "r1",
      IssuerURL := "https://spoofed.example" }
    rfl rfl rfl rfl

/-- Counterexample to C5 as stated: decoding succeeds, yet the
pre-populated `IssuerURL` (step 5: the verified token's issuer claim
`https://real.example`) does not take priority — the token's claim named
`issuer` overwrites it with `https://spoofed.example`. -/
theorem process_claims_overwrite_cex :
    oidcExtractor.Process extractorH ctxA cfgA "auth-code-1" =
      (some { Username := "", ClientID := "abc", ClientSecret := "xyz",
              IDToken := "valid-jwt", RefreshToken := "r1",
              IssuerURL := "https://spoofed.example" }, none) ∧
    ("https://spoofed.example" : String) ≠ idtH.Issuer := by
  exact ⟨rfl, by decide⟩

/-- C4: the source binds the configured HTTP client into `octx` but passes
the original `ctx` to the verification step.  At a concrete input whose
verifier succeeds exactly when its context carries the configured client
(handle 1), `Process` fails with a verification-stage error — the verifier
observed the unbound caller context — while the spec-modelled variant,
which hands the bound context to both steps, succeeds. -/
theorem process_verify_gets_unbound_context :
    oidcExtractor.Process extractorS ctxA cfgA "auth-code-1" =
      (none, some (GoError.wrap (GoError.errNew "verifier used default transport")
        "cannot verify ID token")) ∧
    ProcessSpecBoundTransport extractorS ctxA cfgA "auth-code-1" =
      (some { Username := "user@example.com", ClientID := "abc", ClientSecret := "xyz",
              IDToken := "valid-jwt", RefreshToken := "r1",
              IssuerURL := "https://issuer.example" }, none) := by
  exact ⟨rfl, rfl⟩

/-- Lemma: applying a list of `HTTPClient` options installs the last
client in the list (or keeps the current one for an empty list) and never
fails. -/
theorem applyOptions_map_httpclient (oe : oidcExtractor) (hs : List Nat) :
    applyOptions oe (hs.map HTTPClient) = (some { oe with h := lastOr oe.h hs }, none) := by
  induction hs generalizing oe with
  | nil => rfl
  | cons a rest ih => exact ih { oe with h := a }

/-- Lemma: when the option-application loop reports an error, it returns no
extractor and the error is some option's error wrapped with the
option-application description. -/
theorem applyOptions_error_shape (oo : List OptionFn) :
    ∀ oe e, (applyOptions oe oo).2 = some e →
    (applyOptions oe oo).1 = none ∧
    ∃ e0, e = GoError.wrap e0 "cannot apply OIDC option" := by
  induction oo with
  | nil => intro oe e h; simp [applyOptions] at h
  | cons o rest ih =>
    intro oe e h
    unfold applyOptions at h ⊢
    cases ho : o oe with
    | mk oe' err =>
      cases err with
      | none =>
        rw [ho] at h
        exact ih oe' e h
      | some e0 =>
        rw [ho] at h
        simp only [Option.some.injEq] at h
        exact ⟨rfl, e0, h.symm⟩

/-- C10: building an extractor from any verifier and any sequence of
`HTTPClient` options is pure assembly: it returns a non-nil extractor and
a nil error, the extractor holds the given verifier and the client of the
last `HTTPClient` option (the default client when there is none); and a
construction error can only arise from an option's own error, wrapped with
the option-application description, in which case no extractor is
returned. -/
theorem newOIDC_construction (v : IDTokenVerifier) :
    (∀ hs : List Nat,
      NewOIDC v (hs.map HTTPClient) =
        (some { v := v, h := lastOr defaultHttpClient hs }, none)) ∧
    (∀ (oo : List OptionFn) (e : GoError), (NewOIDC v oo).2 = some e →
      (NewOIDC v oo).1 = none ∧
      ∃ e0, e = GoError.wrap e0 "cannot apply OIDC option") := by
  constructor
  · intro hs
    exact applyOptions_map_httpclient { v := v, h := defaultHttpClient } hs
  · intro oo e h
    exact applyOptions_error_shape oo { v := v, h := defaultHttpClient } e h

/-- Witness for C10: two `HTTPClient` options installed in order leave the
last one's client (handle 2) in the extractor, with no error. -/
theorem newOIDC_construction_witness :
    NewOIDC verifierA [HTTPClient 1, HTTPClient 2] =
      (some { v := verifierA, h := 2 }, none) :=
  (newOIDC_construction verifierA).1 [1, 2]
